import Mathlib

/-!
Shallow embedding of the Ruffle software video decoding backend
(src/core/src/backend/video/software.rs), together with proofs about
the claims of its specification.

External crates (nihav vp6, h263_rs, h263_rs_yuv, and the renderer)
are not part of this repository; they are modelled as oracle records
(`Vp6Env`, `H263Env`, `RendererOps`) whose behaviour is universally
quantified in the theorems, while the control flow of software.rs
itself is translated line by line.

Rust `&mut self` methods that may return `Err` still leave their
mutations behind; the result type `Res` therefore carries the updated
state in both the `ok` and the `err` constructors.  A Rust panic
(out-of-bounds slice, `expect` on `None`) is the `crash` constructor.
-/

namespace RuffleVideo

/-- Outcome of a pure computation: success, a Rust `Err` with message, or a panic. -/
inductive Outcome (α : Type) where
  | ok : α → Outcome α
  | err : String → Outcome α
  | crash : Outcome α
deriving DecidableEq

/-- Outcome of a stateful (`&mut self`) call: on `ok` and `err` the mutated
state is kept (as Rust does on early `return Err`); `crash` is a panic. -/
inductive Res (σ : Type) (α : Type) where
  | ok : α → σ → Res σ α
  | err : String → σ → Res σ α
  | crash : Res σ α

/-- The state carried by a non-panicking result, if any. -/
def Res.state? {σ α : Type} : Res σ α → Option σ
  | .ok _ s => some s
  | .err _ s => some s
  | .crash => none

/-- FrameDependency from backend/video: `none` is an independently decodable
keyframe, `past` depends on the previous frame. -/
inductive FrameDependency where
  | none : FrameDependency
  | past : FrameDependency
deriving DecidableEq

/-- DecodedFrame: width, height and a packed RGBA byte buffer. -/
structure DecodedFrame where
  width : Nat
  height : Nat
  rgba : List Nat
deriving DecidableEq

/-- BitmapInfo returned by the registry decode call. -/
structure BitmapInfo where
  handle : Nat
  width : Nat
  height : Nat
deriving DecidableEq

/-- Rust slice expression data[a..b] : panics when the range is out of bounds. -/
def rustSlice (l : List Nat) (a b : Nat) : Outcome (List Nat) :=
  if a ≤ b ∧ b ≤ l.length then .ok ((l.drop a).take (b - a)) else .crash

/-- Vec copy_within(s..e, d): copies l[s..e] over l[d..d+(e-s)], panicking
when either range is out of bounds.  Overlap is permitted. -/
def copyWithin (l : List Nat) (s e d : Nat) : Outcome (List Nat) :=
  if s ≤ e ∧ e ≤ l.length ∧ d + (e - s) ≤ l.length then
    .ok (l.take d ++ (l.drop s).take (e - s) ++ l.drop (d + (e - s)))
  else .crash

/-! ## Codec Decoder B: the VP6 decoder (module vp6 of software.rs) -/

/-- Model of nihav NAVideoBuffer: raw plane data plus per-plane dimensions,
strides and offsets (planes 0 = luma, 1, 2 = chroma, 3 = alpha). -/
structure NAVideoBuffer where
  data : List Nat
  dims : Nat → Nat × Nat
  stride : Nat → Nat
  offset : Nat → Nat

/-- Model of nihav NABufferType as matched by decode_frame: a video
buffer or anything else. -/
inductive NABufferType where
  | Video : NAVideoBuffer → NABufferType
  | Other : NABufferType

/-- Pixel format tag passed to the decoder init. -/
inductive NAPixelFmt where
  | yuv420 : NAPixelFmt
  | vpYuva420 : NAPixelFmt
deriving DecidableEq

/-- Model of NAVideoInfo: encoded width/height, flip flag, pixel format. -/
structure NAVideoInfo where
  w : Nat
  h : Nat
  flipped : Bool
  fmt : NAPixelFmt
deriving DecidableEq

/-- The VP6 frame header fields used by decode_frame: display size in
16-pixel macroblock units. -/
structure Vp6Header where
  disp_w : Nat
  disp_h : Nat
deriving DecidableEq

/-- Oracle record for the external nihav VP6 code used by the decoder.
`S` is the combined state of VP56Decoder, NADecoderSupport and VP6BR.
Every function follows the Rust signature: `&mut` state in, updated
state out, fallible results as `Except`. -/
structure Vp6Env (S : Type) where
  mk_state : Bool → S
  bool_coder_new : List Nat → Except String Unit
  parse_header : S → List Nat → S × Except String Vp6Header
  vp_init : S → NAVideoInfo → S × Except String Unit
  vp_decode : S → List Nat → S × Except String NABufferType
  yuv420_to_rgba : List Nat → List Nat → List Nat → Nat → Nat → List Nat

/-- State of Vp6Decoder, translated field by field from software.rs. -/
structure Vp6Decoder (S : Type) where
  with_alpha : Bool
  bounds : Nat × Nat
  st : S
  init_called : Bool
  last_frame : Option NAVideoBuffer

/-- Vp6Decoder::new: init is deferred to the first decode_frame call. -/
def Vp6Decoder.new {S : Type} (env : Vp6Env S) (with_alpha : Bool)
    (bounds : Nat × Nat) : Vp6Decoder S :=
  { with_alpha := with_alpha
    bounds := bounds
    st := env.mk_state with_alpha
    init_called := false
    last_frame := none }

/-- Vp6Decoder::preload_frame: looks only at the top bit of the first
payload byte, mutating nothing. -/
def Vp6Decoder.preload_frame {S : Type} (self : Vp6Decoder S)
    (data : List Nat) : Res (Vp6Decoder S) FrameDependency :=
  .ok
    (if !data.isEmpty && (data.getD 0 0 &&& 128 == 0) then
      FrameDependency.none
    else
      FrameDependency.past)
    self

/-- The skip-frame condition of decode_frame: empty payload, or, with
alpha, a payload no longer than the 3-byte alpha offset prefix. -/
def skipCond (with_alpha : Bool) (data : List Nat) : Bool :=
  data.isEmpty || (with_alpha && decide (data.length ≤ 3))

/-- The byte range handed to the bool coder: with alpha, the 3-byte alpha
offset prefix is skipped (data[3..]), otherwise the whole payload. -/
def alphaSlice (with_alpha : Bool) (data : List Nat) : List Nat :=
  if with_alpha then data.drop 3 else data

/-- The NAVideoInfo built from a parsed header: macroblock units times 16,
flipped, with the pixel format chosen by the alpha flag. -/
def vp6VideoInfo (with_alpha : Bool) (header : Vp6Header) : NAVideoInfo :=
  { w := header.disp_w * 16
    h := header.disp_h * 16
    flipped := true
    fmt := if with_alpha then .vpYuva420 else .yuv420 }

/-- The lazy initialization step of Vp6Decoder::decode_frame (the
`if !self.init_called` block).  With alpha, the slice data[3..] panics
when the payload is shorter than 3 bytes. -/
def Vp6Decoder.initStep {S : Type} (env : Vp6Env S) (self : Vp6Decoder S)
    (data : List Nat) : Res (Vp6Decoder S) Unit :=
  if self.with_alpha ∧ data.length < 3 then .crash
  else
    match env.bool_coder_new (alphaSlice self.with_alpha data) with
    | .error e => .err ("Error constructing VP6 bool coder: " ++ e) self
    | .ok _ =>
      match env.parse_header self.st (alphaSlice self.with_alpha data) with
      | (st1, .error e) =>
        .err ("Error parsing VP6 frame header: " ++ e) { self with st := st1 }
      | (st1, .ok header) =>
        match env.vp_init st1 (vp6VideoInfo self.with_alpha header) with
        | (st2, .error e) =>
          .err ("Error initializing VP6 decoder: " ++ e) { self with st := st2 }
        | (st2, .ok _) =>
          .ok () { self with st := st2, init_called := true }

/-- The alpha compositing loop of decode_frame: zips the alpha plane with
4-byte RGBA chunks, clamping R, G and B to the alpha sample and writing
the alpha sample into the fourth byte.  A final RGBA chunk shorter than
4 bytes panics (copy_from_slice length mismatch), matching Rust. -/
def composeAlpha : List Nat → List Nat → Outcome (List Nat)
  | [], rest => .ok rest
  | _ :: _, [] => .ok []
  | a :: as, r0 :: r1 :: r2 :: _r3 :: rest =>
    match composeAlpha as rest with
    | .ok t => .ok (min r0 a :: min r1 a :: min r2 a :: a :: t)
    | .err e => .err e
    | .crash => .crash
  | _ :: _, _ => .crash

/-- The row compaction loop of the cropping step:
`for row in 1..new_height` copy_within of the leading new_width pixels
of each row to its tightly packed position. -/
def squishRows (width nw nh : Nat) (row : Nat) (buf : List Nat) :
    Outcome (List Nat) :=
  if _h : row < nh then
    match copyWithin buf (row * width * 4) ((row * width + nw) * 4)
        (row * nw * 4) with
    | .ok buf2 => squishRows width nw nh (row + 1) buf2
    | .err e => .err e
    | .crash => .crash
  else .ok buf
termination_by nh - row
decreasing_by simp_wf; omega

/-- The cropping step of decode_frame (lines 394-420): squish rows when
the decoded width exceeds the bound, clamp the height, truncate. -/
def cropFrame (bounds : Nat × Nat) (width height : Nat) (rgba : List Nat) :
    Outcome (Nat × Nat × List Nat) :=
  if width > bounds.1 then
    let new_width := bounds.1
    let new_height := min height bounds.2
    match squishRows width new_width new_height 1 rgba with
    | .ok buf =>
      let height2 := min new_height bounds.2
      .ok (new_width, height2, buf.take (new_width * height2 * 4))
    | .err e => .err e
    | .crash => .crash
  else
    let height2 := min height bounds.2
    .ok (width, height2, rgba.take (width * height2 * 4))

/-- The conversion tail of decode_frame (lines 344-427): plane extraction,
YUV to RGBA, optional alpha compositing, cropping.  Depends on the
decoder state only through with_alpha and bounds. -/
def Vp6Decoder.convert {S : Type} (env : Vp6Env S) (with_alpha : Bool)
    (bounds : Nat × Nat) (frame : NAVideoBuffer) : Outcome DecodedFrame :=
  let yuv := frame.data
  let width := (frame.dims 0).1
  let height := (frame.dims 0).2
  let chroma_width := (frame.dims 1).1
  let chroma_height := (frame.dims 1).2
  let off0 := frame.offset 0
  let off1 := frame.offset 1
  let off2 := frame.offset 2
  match rustSlice yuv off0 (off0 + width * height) with
  | .err e => .err e
  | .crash => .crash
  | .ok ys =>
    match rustSlice yuv off1 (off1 + chroma_width * chroma_height) with
    | .err e => .err e
    | .crash => .crash
    | .ok bs =>
      match rustSlice yuv off2 (off2 + chroma_width * chroma_height) with
      | .err e => .err e
      | .crash => .crash
      | .ok rs =>
        let rgba := env.yuv420_to_rgba ys bs rs width chroma_width
        match
          (if with_alpha then
            let alpha_offset := frame.offset 3
            match rustSlice yuv alpha_offset (alpha_offset + width * height) with
            | .err e => Outcome.err e
            | .crash => Outcome.crash
            | .ok alpha => composeAlpha alpha rgba
          else Outcome.ok rgba) with
        | .err e => .err e
        | .crash => .crash
        | .ok rgba2 =>
          match cropFrame bounds width height rgba2 with
          | .err e => .err e
          | .crash => .crash
          | .ok (w2, h2, out) => .ok { width := w2 % 65536, height := h2 % 65536, rgba := out }

/-- The frame-selection step of decode_frame: a skip frame reuses the
last decoded buffer (failing when there is none), otherwise the payload
is decoded through the codec context and remembered as the last frame. -/
def Vp6Decoder.selectFrame {S : Type} (env : Vp6Env S) (s1 : Vp6Decoder S)
    (data : List Nat) : Res (Vp6Decoder S) NAVideoBuffer :=
  if skipCond s1.with_alpha data then
    match s1.last_frame with
    | some f => .ok f s1
    | none => .err "No previous frame found when encountering a skip frame" s1
  else
    match env.vp_decode s1.st data with
    | (st2, .error e) => .err ("VP6 decoder error: " ++ e) { s1 with st := st2 }
    | (st2, .ok bt) =>
      match bt with
      | .Video buf => .ok buf { s1 with st := st2, last_frame := some buf }
      | .Other =>
        .err "Unexpected buffer type after decoding a VP6 frame"
          { s1 with st := st2 }

/-- Vp6Decoder::decode_frame, translated from software.rs lines 270-427:
lazy init, skip-frame detection with last-frame reuse, real decode,
then conversion and cropping. -/
def Vp6Decoder.decode_frame {S : Type} (env : Vp6Env S) (self : Vp6Decoder S)
    (data : List Nat) : Res (Vp6Decoder S) DecodedFrame :=
  match (if self.init_called then Res.ok () self else self.initStep env data) with
  | .crash => .crash
  | .err e s1 => .err e s1
  | .ok _ s1 =>
    match Vp6Decoder.selectFrame env s1 data with
    | .crash => .crash
    | .err e s2 => .err e s2
    | .ok frame s2 =>
      match Vp6Decoder.convert env s2.with_alpha s2.bounds frame with
      | .crash => .crash
      | .err e => .err e s2
      | .ok df => .ok df s2

/-! ## Codec Decoder A: the H.263 decoder (module h263 of software.rs) -/

/-- Picture type codes from h263_rs as matched by preload_frame; all codes
other than the three named ones fall into otherCode. -/
inductive PictureTypeCode where
  | iFrame : PictureTypeCode
  | pFrame : PictureTypeCode
  | disposablePFrame : PictureTypeCode
  | otherCode : Nat → PictureTypeCode
deriving DecidableEq

/-- The fields of an h263_rs Picture used by software.rs: the picture type,
the optional width/height of its format, the chroma samples per row and
the three YUV planes. -/
structure Picture where
  picture_type : PictureTypeCode
  format_dims : Option (Nat × Nat)
  chroma_samples_per_row : Nat
  y_data : List Nat
  b_data : List Nat
  r_data : List Nat
deriving DecidableEq

/-- Oracle record for the external h263_rs code; `T` is the H263State. -/
structure H263Env (T : Type) where
  init_state : T
  parse_picture : T → List Nat → T × Except String (Option Picture)
  decode_next_picture : T → List Nat → T × Except String Unit
  get_last_picture : T → Option Picture
  yuv420_to_rgba : List Nat → List Nat → List Nat → Nat → Nat → List Nat

/-- H263Decoder wraps a single H263State. -/
structure H263Decoder (T : Type) where
  st : T

/-- H263Decoder::new. -/
def H263Decoder.new {T : Type} (env : H263Env T) : H263Decoder T :=
  ⟨env.init_state⟩

/-- H263Decoder::preload_frame: parse the picture header and classify
the picture type. -/
def H263Decoder.preload_frame {T : Type} (env : H263Env T)
    (self : H263Decoder T) (data : List Nat) :
    Res (H263Decoder T) FrameDependency :=
  match env.parse_picture self.st data with
  | (t1, .error e) => .err e ⟨t1⟩
  | (t1, .ok none) => .err "Picture in video stream is not a picture" ⟨t1⟩
  | (t1, .ok (some picture)) =>
    match picture.picture_type with
    | .iFrame => .ok .none ⟨t1⟩
    | .pFrame => .ok .past ⟨t1⟩
    | .disposablePFrame => .ok .past ⟨t1⟩
    | .otherCode _ => .err "Invalid picture type code!" ⟨t1⟩

/-- H263Decoder::decode_frame: decode the next picture, grab the last
picture (expect panics when there is none), read its dimensions and
convert to RGBA. -/
def H263Decoder.decode_frame {T : Type} (env : H263Env T)
    (self : H263Decoder T) (data : List Nat) :
    Res (H263Decoder T) DecodedFrame :=
  match env.decode_next_picture self.st data with
  | (t1, .error e) => .err e ⟨t1⟩
  | (t1, .ok _) =>
    match env.get_last_picture t1 with
    | none => .crash
    | some picture =>
      match picture.format_dims with
      | none => .err "H.263 decoder error!" ⟨t1⟩
      | some (width, height) =>
        let rgba := env.yuv420_to_rgba picture.y_data picture.b_data
          picture.r_data width picture.chroma_samples_per_row
        .ok { width := width, height := height, rgba := rgba } ⟨t1⟩

/-! ## Stream registry (SoftwareVideoBackend) -/

/-- The swf VideoCodec tags matched by register_video_stream. -/
inductive VideoCodec where
  | h263 : VideoCodec
  | screenVideo : VideoCodec
  | vp6 : VideoCodec
  | vp6WithAlpha : VideoCodec
  | screenVideoV2 : VideoCodec
deriving DecidableEq

/-- Debug name of a codec tag, used in the unsupported-codec message. -/
def VideoCodec.debugName : VideoCodec → String
  | .h263 => "H263"
  | .screenVideo => "ScreenVideo"
  | .vp6 => "Vp6"
  | .vp6WithAlpha => "Vp6WithAlpha"
  | .screenVideoV2 => "ScreenVideoV2"

/-- Build-time codec availability (the cfg feature flags of software.rs). -/
structure Features where
  h263 : Bool
  vp6 : Bool
deriving DecidableEq

/-- Whether a codec tag has a decoder under the given feature set:
exactly the arms of the register_video_stream match. -/
def codecSupported (feat : Features) : VideoCodec → Bool
  | .h263 => feat.h263
  | .vp6 => feat.vp6
  | .vp6WithAlpha => feat.vp6
  | _ => false

/-- The Box dyn VideoDecoder stored in a stream: one of the two codecs. -/
inductive CodecDecoder (T S : Type) where
  | h263d : H263Decoder T → CodecDecoder T S
  | vp6d : Vp6Decoder S → CodecDecoder T S

/-- Dispatch decode_frame through the trait object. -/
def CodecDecoder.decode_frame {T S : Type} (henv : H263Env T)
    (venv : Vp6Env S) : CodecDecoder T S → List Nat →
    Res (CodecDecoder T S) DecodedFrame
  | .h263d d, data =>
    match H263Decoder.decode_frame henv d data with
    | .ok f d2 => .ok f (.h263d d2)
    | .err e d2 => .err e (.h263d d2)
    | .crash => .crash
  | .vp6d d, data =>
    match Vp6Decoder.decode_frame venv d data with
    | .ok f d2 => .ok f (.vp6d d2)
    | .err e d2 => .err e (.vp6d d2)
    | .crash => .crash

/-- A VideoStream record: optional renderer bitmap handle plus decoder. -/
structure VideoStream (D : Type) where
  bitmap : Option Nat
  decoder : D

/-- VideoStream::new. -/
def VideoStream.new {D : Type} (decoder : D) : VideoStream D :=
  { bitmap := none, decoder := decoder }

/-- Oracle record for the renderer (backend/render), with `&mut` state `R`.
update_texture and register_bitmap_raw both return a handle. -/
structure RendererOps (R : Type) where
  update_texture : R → Nat → Nat → Nat → List Nat → R × Except String Nat
  register_bitmap_raw : R → Nat → Nat → List Nat → R × Except String Nat

/-- The registry: an arena of streams, modelled as a list indexed by the
stream handle. -/
structure SoftwareVideoBackend (T S : Type) where
  streams : List (VideoStream (CodecDecoder T S))

/-- SoftwareVideoBackend::new. -/
def SoftwareVideoBackend.new {T S : Type} : SoftwareVideoBackend T S :=
  { streams := [] }

/-- register_video_stream: construct the decoder for the codec tag, or
fail without touching the arena.  Returns the updated registry and the
result, as the Rust `&mut self` method does. -/
def register_video_stream {T S : Type} (feat : Features) (henv : H263Env T)
    (venv : Vp6Env S) (backend : SoftwareVideoBackend T S)
    (size : Nat × Nat) (codec : VideoCodec) :
    SoftwareVideoBackend T S × Except String Nat :=
  let unsupported :=
    (backend, Except.error ("Unsupported video codec type " ++ codec.debugName))
  match codec with
  | .h263 =>
    if feat.h263 then
      let stream := VideoStream.new (CodecDecoder.h263d (H263Decoder.new henv))
      ({ streams := backend.streams ++ [stream] }, .ok backend.streams.length)
    else unsupported
  | .vp6 =>
    if feat.vp6 then
      let stream := VideoStream.new
        (CodecDecoder.vp6d (Vp6Decoder.new venv false size))
      ({ streams := backend.streams ++ [stream] }, .ok backend.streams.length)
    else unsupported
  | .vp6WithAlpha =>
    if feat.vp6 then
      let stream := VideoStream.new
        (CodecDecoder.vp6d (Vp6Decoder.new venv true size))
      ({ streams := backend.streams ++ [stream] }, .ok backend.streams.length)
    else unsupported
  | _ => unsupported

/-- The body of decode_video_stream_frame after the stream lookup,
generic in the decoder: decode, then update or register the bitmap. -/
def VideoStream.decode {D R : Type} (decF : D → List Nat → Res D DecodedFrame)
    (rops : RendererOps R) (vs : VideoStream D) (r : R) (data : List Nat) :
    Res (VideoStream D × R) BitmapInfo :=
  match decF vs.decoder data with
  | .crash => .crash
  | .err e d2 => .err e ({ vs with decoder := d2 }, r)
  | .ok frame d2 =>
    let vs1 := { vs with decoder := d2 }
    match vs.bitmap with
    | some b =>
      match rops.update_texture r b frame.width frame.height frame.rgba with
      | (r2, .error e) => .err e (vs1, r2)
      | (r2, .ok handle) =>
        .ok { handle := handle, width := frame.width, height := frame.height }
          ({ vs1 with bitmap := some handle }, r2)
    | none =>
      match rops.register_bitmap_raw r frame.width frame.height frame.rgba with
      | (r2, .error e) => .err e (vs1, r2)
      | (r2, .ok handle) =>
        .ok { handle := handle, width := frame.width, height := frame.height }
          ({ vs1 with bitmap := some handle }, r2)

/-- SoftwareVideoBackend::decode_video_stream_frame: look the stream up,
decode, store the mutated stream back into the arena. -/
def SoftwareVideoBackend.decode_video_stream_frame {T S R : Type}
    (henv : H263Env T) (venv : Vp6Env S) (rops : RendererOps R)
    (backend : SoftwareVideoBackend T S) (handle : Nat) (data : List Nat)
    (r : R) : Res (SoftwareVideoBackend T S × R) BitmapInfo :=
  match backend.streams.get? handle with
  | none => .err "Unregistered video stream" (backend, r)
  | some vs =>
    match VideoStream.decode (CodecDecoder.decode_frame henv venv) rops vs r data with
    | .crash => .crash
    | .err e (vs2, r2) =>
      .err e ({ streams := backend.streams.set handle vs2 }, r2)
    | .ok bi (vs2, r2) =>
      .ok bi ({ streams := backend.streams.set handle vs2 }, r2)

/-- Renderer instrumented with a counter of successful raw-bitmap
registrations, used to state that a stream registers at most one bitmap. -/
def countingOps {R : Type} (rops : RendererOps R) : RendererOps (R × Nat) :=
  { update_texture := fun rc b w h d =>
      let p := rops.update_texture rc.1 b w h d
      ((p.1, rc.2), p.2)
    register_bitmap_raw := fun rc w h d =>
      let p := rops.register_bitmap_raw rc.1 w h d
      ((p.1, match p.2 with | .ok _ => rc.2 + 1 | .error _ => rc.2), p.2) }

/-- Run a sequence of decode calls against one stream, carrying the
mutated stream and renderer through both successes and errors; a panic
aborts the run. -/
def runStream {D R : Type} (decF : D → List Nat → Res D DecodedFrame)
    (rops : RendererOps R) :
    VideoStream D × R → List (List Nat) → Option (VideoStream D × R)
  | sr, [] => some sr
  | (vs, r), d :: rest =>
    match VideoStream.decode decF rops vs r d with
    | .crash => none
    | .err _ sr2 => runStream decF rops sr2 rest
    | .ok _ sr2 => runStream decF rops sr2 rest

/-! ## Concrete oracle instances used by witnesses and counterexamples -/

/-- A one-pixel video buffer: every plane is 1 x 1 at offset 0. -/
def vbuf0 : NAVideoBuffer :=
  { data := [7], dims := fun _ => (1, 1), stride := fun _ => 1,
    offset := fun _ => 0 }

/-- A benign VP6 oracle over trivial state: everything succeeds and a
real decode yields vbuf0. -/
def env0 : Vp6Env Unit :=
  { mk_state := fun _ => ()
    bool_coder_new := fun _ => .ok ()
    parse_header := fun s _ => (s, .ok { disp_w := 1, disp_h := 1 })
    vp_init := fun s _ => (s, .ok ())
    vp_decode := fun s _ => (s, .ok (.Video vbuf0))
    yuv420_to_rgba := fun _ _ _ _ _ => [9, 9, 9, 255] }

/-- A VP6 oracle whose bool-coder construction rejects inputs shorter
than 3 bytes, as the external nihav BoolCoder does (ShortData). -/
def env1 : Vp6Env Unit :=
  { env0 with
    bool_coder_new := fun d =>
      if d.length < 3 then .error "ShortData" else .ok () }

/-- A fresh no-alpha VP6 decoder with bounds (1, 1) over env0. -/
def vp6self0 : Vp6Decoder Unit := Vp6Decoder.new env0 false (1, 1)

/-- The state of vp6self0 after its first successful decode over env0. -/
def vp6self1 : Vp6Decoder Unit :=
  { with_alpha := false, bounds := (1, 1), st := (), init_called := true,
    last_frame := some vbuf0 }

/-- A 32 x 32 intra-coded picture, larger than the (16, 16) bounds used
in the registration counterexample. -/
def pic32 : Picture :=
  { picture_type := .iFrame, format_dims := some (32, 32),
    chroma_samples_per_row := 16, y_data := [], b_data := [], r_data := [] }

/-- An H.263 oracle over trivial state that always yields pic32. -/
def henv0 : H263Env Unit :=
  { init_state := ()
    parse_picture := fun s _ => (s, .ok (some pic32))
    decode_next_picture := fun s _ => (s, .ok ())
    get_last_picture := fun _ => some pic32
    yuv420_to_rgba := fun _ _ _ _ _ => [] }

/-- A renderer oracle over trivial state that always hands out handle 7. -/
def rops0 : RendererOps Unit :=
  { update_texture := fun r _ _ _ _ => (r, .ok 7)
    register_bitmap_raw := fun r _ _ _ => (r, .ok 7) }

/-! ## Claim C6: VP6 preload classification -/

/-- C6: For Codec Decoder B, preload_frame returns FrameDependency.none
when the payload is non-empty with the top bit of its first byte clear,
FrameDependency.past when the top bit is set, and FrameDependency.past
when the payload is empty; it never fails and returns the decoder state
unchanged. -/
theorem vp6_preload_classifies {S : Type} (self : Vp6Decoder S)
    (data : List Nat) :
    (data = [] → self.preload_frame data = .ok .past self)
    ∧ (∀ b bs, data = b :: bs → b &&& 128 = 0 →
        self.preload_frame data = .ok .none self)
    ∧ (∀ b bs, data = b :: bs → b &&& 128 ≠ 0 →
        self.preload_frame data = .ok .past self)
    ∧ (∃ dep, self.preload_frame data = .ok dep self) := by
  refine ⟨?_, ?_, ?_, ?_⟩
  · rintro rfl; rfl
  · rintro b bs rfl hb
    unfold Vp6Decoder.preload_frame
    simp [hb]
  · rintro b bs rfl hb
    unfold Vp6Decoder.preload_frame
    simp [hb]
  · cases data with
    | nil => exact ⟨.past, rfl⟩
    | cons b bs =>
      by_cases hb : b &&& 128 = 0
      · exact ⟨.none, by unfold Vp6Decoder.preload_frame; simp [hb]⟩
      · exact ⟨.past, by unfold Vp6Decoder.preload_frame; simp [hb]⟩

/-- Witness for C6 at a concrete input: first byte 128 has the top bit
set, so the dependency is past and the state is unchanged. -/
theorem vp6_preload_classifies_witness :
    (128 &&& 128 ≠ 0)
    ∧ Vp6Decoder.preload_frame vp6self0 [128] = .ok .past vp6self0 :=
  ⟨by decide,
   (vp6_preload_classifies vp6self0 [128]).2.2.1 128 [] rfl (by decide)⟩

/-! ## Claim C10: pre-init short alpha payload panics -/

/-- C10: For Codec Decoder B with alpha enabled, a decode_frame call made
before initialization with a payload of fewer than 3 bytes panics
(the slice data[3..] is out of bounds), because lazy initialization runs
before skip-frame detection. -/
theorem vp6_alpha_short_payload_panics {S : Type} (env : Vp6Env S)
    (self : Vp6Decoder S) (data : List Nat) (ha : self.with_alpha = true)
    (hi : self.init_called = false) (hlen : data.length < 3) :
    Vp6Decoder.decode_frame env self data = .crash := by
  unfold Vp6Decoder.decode_frame Vp6Decoder.initStep
  rw [hi]
  simp [ha, hlen]

/-- Witness for C10: a fresh alpha-enabled decoder fed a 1-byte payload
panics. -/
theorem vp6_alpha_short_payload_panics_witness :
    (Vp6Decoder.new env0 true (1, 1)).with_alpha = true
    ∧ (Vp6Decoder.new env0 true (1, 1)).init_called = false
    ∧ ([9] : List Nat).length < 3
    ∧ Vp6Decoder.decode_frame env0 (Vp6Decoder.new env0 true (1, 1)) [9]
        = .crash :=
  ⟨rfl, rfl, by decide,
   vp6_alpha_short_payload_panics env0 _ [9] rfl rfl (by decide)⟩

/-! ## Claim C5: alpha compositing clamps RGB to the alpha sample -/

/-- getD through four cons cells. -/
lemma getD_cons4 (x0 x1 x2 x3 : Nat) (t : List Nat) (n : Nat) :
    (x0 :: x1 :: x2 :: x3 :: t).getD (n + 4) 0 = t.getD n 0 := rfl

/-- C5: the alpha compositing loop of decode_frame (composeAlpha) maps
every pixel so that each of R, G, B becomes the minimum of the converted
channel and the alpha sample, and the alpha channel becomes the alpha
sample unchanged. -/
theorem vp6_alpha_clamps_rgb_to_min (alpha rgba : List Nat)
    (hlen : rgba.length = 4 * alpha.length) :
    ∃ out, composeAlpha alpha rgba = .ok out
      ∧ out.length = rgba.length
      ∧ ∀ i, i < alpha.length →
          out.getD (4 * i) 0 = min (rgba.getD (4 * i) 0) (alpha.getD i 0)
          ∧ out.getD (4 * i + 1) 0
            = min (rgba.getD (4 * i + 1) 0) (alpha.getD i 0)
          ∧ out.getD (4 * i + 2) 0
            = min (rgba.getD (4 * i + 2) 0) (alpha.getD i 0)
          ∧ out.getD (4 * i + 3) 0 = alpha.getD i 0 := by
  induction alpha generalizing rgba with
  | nil =>
    refine ⟨rgba, rfl, rfl, ?_⟩
    intro i hi
    exact absurd hi (Nat.not_lt_zero i)
  | cons a as ih =>
    rcases rgba with _ | ⟨r0, _ | ⟨r1, _ | ⟨r2, _ | ⟨_r3, rest⟩⟩⟩⟩
    · simp at hlen
    · simp at hlen; omega
    · simp at hlen; omega
    · simp at hlen; omega
    · have hlen4 : rest.length = 4 * as.length := by
        simp at hlen; omega
      obtain ⟨out, hout, houtlen, hind⟩ := ih rest hlen4
      refine ⟨min r0 a :: min r1 a :: min r2 a :: a :: out, ?_, ?_, ?_⟩
      · simp [composeAlpha, hout]
      · simp [houtlen]
      · intro i hi
        cases i with
        | zero => exact ⟨rfl, rfl, rfl, rfl⟩
        | succ j =>
          have hj : j < as.length := by
            simp at hi; omega
          obtain ⟨e0, e1, e2, e3⟩ := hind j hj
          refine ⟨?_, ?_, ?_, ?_⟩
          · rw [show 4 * (j + 1) = 4 * j + 4 from by ring,
              getD_cons4, getD_cons4]
            exact e0
          · rw [show 4 * (j + 1) + 1 = (4 * j + 1) + 4 from by ring,
              getD_cons4, getD_cons4]
            exact e1
          · rw [show 4 * (j + 1) + 2 = (4 * j + 2) + 4 from by ring,
              getD_cons4, getD_cons4]
            exact e2
          · rw [show 4 * (j + 1) + 3 = (4 * j + 3) + 4 from by ring,
              getD_cons4]
            exact e3

/-- Witness for C5: the spec example, a (200, 200, 200) pixel with alpha
sample 100 becomes (100, 100, 100, 100). -/
theorem vp6_alpha_clamps_rgb_to_min_witness :
    ([200, 200, 200, 255] : List Nat).length = 4 * ([100] : List Nat).length
    ∧ ∃ out, composeAlpha [100] [200, 200, 200, 255] = .ok out
      ∧ out.length = ([200, 200, 200, 255] : List Nat).length
      ∧ ∀ i, i < ([100] : List Nat).length →
          out.getD (4 * i) 0
            = min (([200, 200, 200, 255] : List Nat).getD (4 * i) 0)
                (([100] : List Nat).getD i 0)
          ∧ out.getD (4 * i + 1) 0
            = min (([200, 200, 200, 255] : List Nat).getD (4 * i + 1) 0)
                (([100] : List Nat).getD i 0)
          ∧ out.getD (4 * i + 2) 0
            = min (([200, 200, 200, 255] : List Nat).getD (4 * i + 2) 0)
                (([100] : List Nat).getD i 0)
          ∧ out.getD (4 * i + 3) 0 = ([100] : List Nat).getD i 0 :=
  ⟨rfl, vp6_alpha_clamps_rgb_to_min [100] [200, 200, 200, 255] rfl⟩

/-! ## Claim C7: H.263 preload classification -/

/-- C7: For Codec Decoder A, when the picture header parses, preload_frame
maps an intra-coded picture to FrameDependency.none, a predicted or
disposable-predicted picture to FrameDependency.past, and any other
picture type code to the invalid-picture-type error. -/
theorem h263_preload_classifies {T : Type} (env : H263Env T)
    (self : H263Decoder T) (data : List Nat) (t1 : T) (pic : Picture)
    (hp : env.parse_picture self.st data = (t1, .ok (some pic))) :
    (pic.picture_type = .iFrame →
      H263Decoder.preload_frame env self data = .ok .none ⟨t1⟩)
    ∧ (pic.picture_type = .pFrame →
      H263Decoder.preload_frame env self data = .ok .past ⟨t1⟩)
    ∧ (pic.picture_type = .disposablePFrame →
      H263Decoder.preload_frame env self data = .ok .past ⟨t1⟩)
    ∧ (∀ n, pic.picture_type = .otherCode n →
      H263Decoder.preload_frame env self data
        = .err "Invalid picture type code!" ⟨t1⟩) := by
  unfold H263Decoder.preload_frame
  rw [hp]
  dsimp only
  exact ⟨fun h => by rw [h], fun h => by rw [h], fun h => by rw [h],
    fun n h => by rw [h]⟩

/-- Witness for C7: henv0 always parses pic32, an intra-coded picture, so
preload yields FrameDependency.none. -/
theorem h263_preload_classifies_witness :
    henv0.parse_picture (H263Decoder.new henv0).st [1] = ((), .ok (some pic32))
    ∧ pic32.picture_type = .iFrame
    ∧ H263Decoder.preload_frame henv0 (H263Decoder.new henv0) [1]
        = .ok .none ⟨()⟩ :=
  ⟨rfl, rfl,
   (h263_preload_classifies henv0 (H263Decoder.new henv0) [1] () pic32 rfl).1
     rfl⟩

/-! ## Claim C8: unsupported codec tags fail registration -/

/-- C8: Registering a stream whose codec tag has no decoder under the
build features (including compiled-out codecs) returns the
unsupported-codec error and leaves the registry untouched, so its
stream count is unchanged and no failure is deferred to decode time. -/
theorem register_unsupported_codec {T S : Type} (feat : Features)
    (henv : H263Env T) (venv : Vp6Env S)
    (backend : SoftwareVideoBackend T S) (size : Nat × Nat)
    (codec : VideoCodec) (huns : codecSupported feat codec = false) :
    register_video_stream feat henv venv backend size codec
      = (backend,
          .error ("Unsupported video codec type " ++ codec.debugName))
    ∧ (register_video_stream feat henv venv backend size codec).1.streams.length
      = backend.streams.length := by
  have h : register_video_stream feat henv venv backend size codec
      = (backend,
          .error ("Unsupported video codec type " ++ codec.debugName)) := by
    cases codec with
    | h263 =>
      simp only [codecSupported] at huns
      simp [register_video_stream, huns]
    | vp6 =>
      simp only [codecSupported] at huns
      simp [register_video_stream, huns]
    | vp6WithAlpha =>
      simp only [codecSupported] at huns
      simp [register_video_stream, huns]
    | screenVideo => rfl
    | screenVideoV2 => rfl
  exact ⟨h, by rw [h]⟩

/-- Witness for C8: with both features on, the ScreenVideo tag is still
unsupported and registration on an empty registry fails without adding
a stream. -/
theorem register_unsupported_codec_witness :
    codecSupported ⟨true, true⟩ .screenVideo = false
    ∧ register_video_stream (T := Unit) (S := Unit) ⟨true, true⟩ henv0 env0
        SoftwareVideoBackend.new (1, 1) .screenVideo
      = (SoftwareVideoBackend.new,
          .error ("Unsupported video codec type "
            ++ VideoCodec.debugName .screenVideo))
    ∧ (register_video_stream (T := Unit) (S := Unit) ⟨true, true⟩ henv0 env0
        SoftwareVideoBackend.new (1, 1) .screenVideo).1.streams.length
      = (SoftwareVideoBackend.new (T := Unit) (S := Unit)).streams.length :=
  ⟨rfl,
   (register_unsupported_codec ⟨true, true⟩ henv0 env0
     SoftwareVideoBackend.new (1, 1) .screenVideo rfl).1,
   (register_unsupported_codec ⟨true, true⟩ henv0 env0
     SoftwareVideoBackend.new (1, 1) .screenVideo rfl).2⟩

/-! ## Shape lemmas about the VP6 decode state machine -/

/-- A successful init step sets init_called and touches nothing but the
decoder state. -/
lemma initStep_ok_shape {S : Type} (env : Vp6Env S) (self : Vp6Decoder S)
    (data : List Nat) (u : Unit) (s1 : Vp6Decoder S)
    (h : self.initStep env data = .ok u s1) :
    s1.init_called = true ∧ s1.with_alpha = self.with_alpha
    ∧ s1.bounds = self.bounds ∧ s1.last_frame = self.last_frame := by
  unfold Vp6Decoder.initStep at h
  split at h
  · exact (nomatch h)
  · split at h
    · exact (nomatch h)
    · split at h
      · exact (nomatch h)
      · split at h
        · exact (nomatch h)
        · injection h with h1 h2
          subst h2
          exact ⟨rfl, rfl, rfl, rfl⟩

/-- A failed init step leaves init_called (and every field other than the
codec state) unchanged. -/
lemma initStep_err_shape {S : Type} (env : Vp6Env S) (self : Vp6Decoder S)
    (data : List Nat) (e : String) (s1 : Vp6Decoder S)
    (h : self.initStep env data = .err e s1) :
    s1.init_called = self.init_called ∧ s1.with_alpha = self.with_alpha
    ∧ s1.bounds = self.bounds ∧ s1.last_frame = self.last_frame := by
  unfold Vp6Decoder.initStep at h
  split at h
  · exact (nomatch h)
  · split at h
    · injection h with h1 h2
      subst h2
      exact ⟨rfl, rfl, rfl, rfl⟩
    · split at h
      · injection h with h1 h2
        subst h2
        exact ⟨rfl, rfl, rfl, rfl⟩
      · split at h
        · injection h with h1 h2
          subst h2
          exact ⟨rfl, rfl, rfl, rfl⟩
        · exact (nomatch h)

/-- A successful frame selection preserves every field except the codec
state and the last frame, and leaves the selected buffer as last_frame. -/
lemma selectFrame_ok_shape {S : Type} (env : Vp6Env S) (s1 : Vp6Decoder S)
    (data : List Nat) (f : NAVideoBuffer) (s2 : Vp6Decoder S)
    (h : Vp6Decoder.selectFrame env s1 data = .ok f s2) :
    s2.with_alpha = s1.with_alpha ∧ s2.bounds = s1.bounds
    ∧ s2.init_called = s1.init_called ∧ s2.last_frame = some f := by
  unfold Vp6Decoder.selectFrame at h
  split at h
  · split at h
    · injection h with h1 h2
      subst h1; subst h2
      exact ⟨rfl, rfl, rfl, by assumption⟩
    · exact (nomatch h)
  · split at h
    · exact (nomatch h)
    · split at h
      · injection h with h1 h2
        subst h1; subst h2
        exact ⟨rfl, rfl, rfl, rfl⟩
      · exact (nomatch h)

/-- A failed frame selection preserves with_alpha, bounds, init_called
and last_frame. -/
lemma selectFrame_err_shape {S : Type} (env : Vp6Env S) (s1 : Vp6Decoder S)
    (data : List Nat) (e : String) (s2 : Vp6Decoder S)
    (h : Vp6Decoder.selectFrame env s1 data = .err e s2) :
    s2.with_alpha = s1.with_alpha ∧ s2.bounds = s1.bounds
    ∧ s2.init_called = s1.init_called ∧ s2.last_frame = s1.last_frame := by
  unfold Vp6Decoder.selectFrame at h
  split at h
  · split at h
    · exact (nomatch h)
    · injection h with h1 h2
      subst h2
      exact ⟨rfl, rfl, rfl, rfl⟩
  · split at h
    · injection h with h1 h2
      subst h2
      exact ⟨rfl, rfl, rfl, rfl⟩
    · split at h
      · exact (nomatch h)
      · injection h with h1 h2
        subst h2
        exact ⟨rfl, rfl, rfl, rfl⟩

/-- A successful decode_frame call ends initialized, preserves with_alpha
and bounds, and its output is exactly the conversion of the buffer it
stored as last_frame. -/
lemma decode_ok_shape {S : Type} (env : Vp6Env S) (self : Vp6Decoder S)
    (data : List Nat) (df : DecodedFrame) (s' : Vp6Decoder S)
    (h : Vp6Decoder.decode_frame env self data = .ok df s') :
    s'.init_called = true ∧ s'.with_alpha = self.with_alpha
    ∧ s'.bounds = self.bounds
    ∧ ∃ b, s'.last_frame = some b
      ∧ Vp6Decoder.convert env s'.with_alpha s'.bounds b = .ok df := by
  unfold Vp6Decoder.decode_frame at h
  split at h
  next heq => exact (nomatch h)
  next e s1 heq => exact (nomatch h)
  next u s1 heq =>
    have hs1 : s1.init_called = true ∧ s1.with_alpha = self.with_alpha
        ∧ s1.bounds = self.bounds := by
      split at heq
      next hic =>
        injection heq with heq1 heqs
        subst heqs
        exact ⟨hic, rfl, rfl⟩
      next hic =>
        obtain ⟨a, b, c, d⟩ := initStep_ok_shape env self data u s1 heq
        exact ⟨a, b, c⟩
    split at h
    next heq2 => exact (nomatch h)
    next e s2 heq2 => exact (nomatch h)
    next frame s2 heq2 =>
      obtain ⟨w2, b2, i2, l2⟩ := selectFrame_ok_shape env s1 data frame s2 heq2
      split at h
      next heq3 => exact (nomatch h)
      next e heq3 => exact (nomatch h)
      next df2 heq3 =>
        injection h with h1 h2
        subst h1; subst h2
        exact ⟨by rw [i2]; exact hs1.1, by rw [w2]; exact hs1.2.1,
          by rw [b2]; exact hs1.2.2, frame, l2, heq3⟩

/-- Any non-panicking decode_frame call preserves with_alpha and bounds,
and never clears the init flag. -/
lemma decode_state_shape {S : Type} (env : Vp6Env S) (self : Vp6Decoder S)
    (data : List Nat) (s' : Vp6Decoder S)
    (h : (Vp6Decoder.decode_frame env self data).state? = some s') :
    s'.with_alpha = self.with_alpha ∧ s'.bounds = self.bounds
    ∧ (self.init_called = true → s'.init_called = true) := by
  unfold Vp6Decoder.decode_frame at h
  split at h
  next heq => exact (nomatch h)
  next e s1 heq =>
    simp only [Res.state?, Option.some.injEq] at h
    subst h
    split at heq
    next hic => exact (nomatch heq)
    next hic =>
      obtain ⟨a, b, c, d⟩ := initStep_err_shape env self data e _ heq
      exact ⟨b, c, fun h2 => absurd h2 hic⟩
  next u s1 heq =>
    have hs1 : s1.with_alpha = self.with_alpha ∧ s1.bounds = self.bounds
        ∧ (self.init_called = true → s1.init_called = true) := by
      split at heq
      next hic =>
        injection heq with heq1 heqs
        subst heqs
        exact ⟨rfl, rfl, fun h2 => h2⟩
      next hic =>
        obtain ⟨a, b, c, d⟩ := initStep_ok_shape env self data u s1 heq
        exact ⟨b, c, fun _ => a⟩
    split at h
    next heq2 => exact (nomatch h)
    next e s2 heq2 =>
      simp only [Res.state?, Option.some.injEq] at h
      subst h
      obtain ⟨a, b, c, d⟩ := selectFrame_err_shape env s1 data e _ heq2
      exact ⟨a.trans hs1.1, b.trans hs1.2.1,
        fun hic => by rw [c]; exact hs1.2.2 hic⟩
    next frame s2 heq2 =>
      obtain ⟨a, b, c, d⟩ := selectFrame_ok_shape env s1 data frame s2 heq2
      have hfields : s2.with_alpha = self.with_alpha ∧ s2.bounds = self.bounds
          ∧ (self.init_called = true → s2.init_called = true) :=
        ⟨a.trans hs1.1, b.trans hs1.2.1,
          fun hic => by rw [c]; exact hs1.2.2 hic⟩
      split at h
      next heq3 => exact (nomatch h)
      next e heq3 =>
        simp only [Res.state?, Option.some.injEq] at h
        subst h
        exact hfields
      next df2 heq3 =>
        simp only [Res.state?, Option.some.injEq] at h
        subst h
        exact hfields

/-- cropFrame never returns dimensions above the bounds. -/
lemma cropFrame_ok_le (bounds : Nat × Nat) (width height : Nat)
    (rgba : List Nat) (w2 h2 : Nat) (out : List Nat)
    (h : cropFrame bounds width height rgba = .ok (w2, h2, out)) :
    w2 ≤ bounds.1 ∧ h2 ≤ bounds.2 := by
  unfold cropFrame at h
  simp only [] at h
  split at h
  next hgt =>
    split at h
    next buf heq =>
      simp only [Outcome.ok.injEq, Prod.mk.injEq] at h
      obtain ⟨hw, hh, -⟩ := h
      omega
    next e heq => exact (nomatch h)
    next heq => exact (nomatch h)
  next hgt =>
    simp only [Outcome.ok.injEq, Prod.mk.injEq] at h
    obtain ⟨hw, hh, -⟩ := h
    omega

/-- The conversion pipeline never returns dimensions above the bounds. -/
lemma convert_ok_le {S : Type} (env : Vp6Env S) (wa : Bool)
    (bounds : Nat × Nat) (frame : NAVideoBuffer) (df : DecodedFrame)
    (h : Vp6Decoder.convert env wa bounds frame = .ok df) :
    df.width ≤ bounds.1 ∧ df.height ≤ bounds.2 := by
  unfold Vp6Decoder.convert at h
  simp only [] at h
  split at h
  next e heq => exact (nomatch h)
  next heq => exact (nomatch h)
  next ys heq =>
    split at h
    next e heq2 => exact (nomatch h)
    next heq2 => exact (nomatch h)
    next bs heq2 =>
      split at h
      next e heq3 => exact (nomatch h)
      next heq3 => exact (nomatch h)
      next rs heq3 =>
        split at h
        next e heq4 => exact (nomatch h)
        next heq4 => exact (nomatch h)
        next rgba2 heq4 =>
          split at h
          next e heq5 => exact (nomatch h)
          next heq5 => exact (nomatch h)
          next w2 h2 out heq5 =>
            injection h with h1
            subst h1
            obtain ⟨hw, hh⟩ := cropFrame_ok_le bounds _ _ rgba2 w2 h2 out heq5
            exact ⟨le_trans (Nat.mod_le _ _) hw, le_trans (Nat.mod_le _ _) hh⟩

/-! ## Claim C3: decoded dimensions versus registration bounds -/

/-- C3 (amended): for Codec Decoder B, every successful decode_frame call
returns a frame whose cropped width and height never exceed the bounds
declared at registration. -/
theorem vp6_dims_within_bounds {S : Type} (env : Vp6Env S)
    (self : Vp6Decoder S) (data : List Nat) (df : DecodedFrame)
    (s' : Vp6Decoder S)
    (h : Vp6Decoder.decode_frame env self data = .ok df s') :
    df.width ≤ self.bounds.1 ∧ df.height ≤ self.bounds.2 := by
  obtain ⟨hi, hwa, hb, b, hlast, hconv⟩ := decode_ok_shape env self data df s' h
  have hle := convert_ok_le env s'.with_alpha s'.bounds b df hconv
  rw [hb] at hle
  exact hle

/-- Witness for the amended C3 at a concrete successful VP6 decode. -/
theorem vp6_dims_within_bounds_witness :
    Vp6Decoder.decode_frame env0 vp6self0 [5]
      = .ok { width := 1, height := 1, rgba := [9, 9, 9, 255] } vp6self1
    ∧ ({ width := 1, height := 1, rgba := [9, 9, 9, 255] } : DecodedFrame).width
        ≤ vp6self0.bounds.1
    ∧ ({ width := 1, height := 1, rgba := [9, 9, 9, 255] } : DecodedFrame).height
        ≤ vp6self0.bounds.2 :=
  ⟨rfl,
   (vp6_dims_within_bounds env0 vp6self0 [5] _ vp6self1 rfl).1,
   (vp6_dims_within_bounds env0 vp6self0 [5] _ vp6self1 rfl).2⟩

/-- Counterexample to C3 as stated: Codec Decoder A ignores the bounds
declared at registration.  Registering an H.263 stream with bounds
(16, 16) and decoding a frame whose picture is 32 x 32 succeeds and
returns width and height 32, exceeding the declared bounds. -/
theorem h263_ignores_registration_bounds :
    (register_video_stream (T := Unit) (S := Unit) ⟨true, true⟩ henv0 env0
        SoftwareVideoBackend.new (16, 16) .h263).2 = .ok 0
    ∧ (∃ st, SoftwareVideoBackend.decode_video_stream_frame henv0 env0 rops0
        (register_video_stream ⟨true, true⟩ henv0 env0
          SoftwareVideoBackend.new (16, 16) .h263).1 0 [1] ()
        = .ok { handle := 7, width := 32, height := 32 } st)
    ∧ 16 < 32 :=
  ⟨rfl, ⟨_, rfl⟩, by decide⟩

/-- The conversion tail reads the oracle only through yuv420_to_rgba. -/
lemma convert_congr {S : Type} (env env' : Vp6Env S)
    (hyuv : env.yuv420_to_rgba = env'.yuv420_to_rgba) (wa : Bool)
    (bounds : Nat × Nat) (frame : NAVideoBuffer) :
    Vp6Decoder.convert env wa bounds frame
      = Vp6Decoder.convert env' wa bounds frame := by
  unfold Vp6Decoder.convert
  rw [hyuv]

/-- Frame selection reads the oracle only through vp_decode. -/
lemma selectFrame_congr {S : Type} (env env' : Vp6Env S)
    (hdec : env.vp_decode = env'.vp_decode) (s1 : Vp6Decoder S)
    (data : List Nat) :
    Vp6Decoder.selectFrame env s1 data
      = Vp6Decoder.selectFrame env' s1 data := by
  unfold Vp6Decoder.selectFrame
  rw [hdec]

/-- On an already initialized decoder, decode_frame goes straight to the
frame selection and conversion stages: the init step is skipped. -/
lemma decode_frame_initialized {S : Type} (env : Vp6Env S)
    (self : Vp6Decoder S) (data : List Nat)
    (hinit : self.init_called = true) :
    Vp6Decoder.decode_frame env self data
      = match Vp6Decoder.selectFrame env self data with
        | .crash => .crash
        | .err e s2 => .err e s2
        | .ok frame s2 =>
          match Vp6Decoder.convert env s2.with_alpha s2.bounds frame with
          | .crash => .crash
          | .err e => .err e s2
          | .ok df => .ok df s2 := by
  unfold Vp6Decoder.decode_frame
  rw [if_pos hinit]

/-- A call whose resulting state is still uninitialized always fails. -/
lemma decode_uninit_fails {S : Type} (env : Vp6Env S) (self : Vp6Decoder S)
    (data : List Nat) (s' : Vp6Decoder S)
    (hs : (Vp6Decoder.decode_frame env self data).state? = some s')
    (hflag : s'.init_called = false) :
    ∃ e, Vp6Decoder.decode_frame env self data = .err e s' := by
  unfold Vp6Decoder.decode_frame at hs ⊢
  split at hs
  next heq => exact (nomatch hs)
  next e s1 heq =>
    simp only [Res.state?, Option.some.injEq] at hs
    subst hs
    exact ⟨e, rfl⟩
  next u s1 heq =>
    have hs1 : s1.init_called = true := by
      split at heq
      next hic =>
        injection heq with heq1 heqs
        subst heqs
        exact hic
      next hic => exact (initStep_ok_shape env self data u s1 heq).1
    split at hs
    next heq2 => exact (nomatch hs)
    next e s2 heq2 =>
      simp only [Res.state?, Option.some.injEq] at hs
      subst hs
      exact ⟨e, rfl⟩
    next frame s2 heq2 =>
      have hs2 : s2.init_called = true := by
        rw [(selectFrame_ok_shape env s1 data frame s2 heq2).2.2.1]
        exact hs1
      split at hs
      next heq3 => exact (nomatch hs)
      next e heq3 =>
        simp only [Res.state?, Option.some.injEq] at hs
        subst hs
        exact absurd hs2 (by rw [hflag]; exact Bool.false_ne_true)
      next df heq3 =>
        simp only [Res.state?, Option.some.injEq] at hs
        subst hs
        exact absurd hs2 (by rw [hflag]; exact Bool.false_ne_true)

/-! ## Claim C1: the init flag transitions at most once -/

/-- C1 (amended): the init flag is monotone and set exactly by the first
call whose init step succeeds: once initialized, decode_frame no longer
consults the header-parsing oracles (its result depends only on
vp_decode and the color converter); a call whose resulting state is
still uninitialized has failed; a failed init step fails the whole call
without setting the flag; a successful init step sets it. -/
theorem vp6_init_transitions_once {S : Type} (env env' : Vp6Env S)
    (self : Vp6Decoder S) (data : List Nat)
    (hdec : env.vp_decode = env'.vp_decode)
    (hyuv : env.yuv420_to_rgba = env'.yuv420_to_rgba) :
    (self.init_called = true →
      Vp6Decoder.decode_frame env self data
        = Vp6Decoder.decode_frame env' self data)
    ∧ (∀ s', (Vp6Decoder.decode_frame env self data).state? = some s' →
        (self.init_called = true → s'.init_called = true)
        ∧ (s'.init_called = false →
          ∃ e, Vp6Decoder.decode_frame env self data = .err e s'))
    ∧ (∀ e s1, self.init_called = false →
        self.initStep env data = .err e s1 →
        Vp6Decoder.decode_frame env self data = .err e s1
        ∧ s1.init_called = false)
    ∧ (∀ s1, self.initStep env data = .ok () s1 → s1.init_called = true) := by
  refine ⟨?_, ?_, ?_, ?_⟩
  · intro hinit
    rw [decode_frame_initialized env self data hinit,
      decode_frame_initialized env' self data hinit,
      selectFrame_congr env env' hdec self data]
    have hc := convert_congr env env' hyuv
    simp only [hc]
  · intro s' hs
    refine ⟨(decode_state_shape env self data s' hs).2.2, ?_⟩
    intro hflag
    exact decode_uninit_fails env self data s' hs hflag
  · intro e s1 hflag hstep
    constructor
    · unfold Vp6Decoder.decode_frame
      rw [if_neg (by rw [hflag]; exact Bool.false_ne_true), hstep]
    · rw [(initStep_err_shape env self data e s1 hstep).1, hflag]
  · intro s1 hstep
    exact (initStep_ok_shape env self data () s1 hstep).1

/-- Witness for the amended C1: on a fresh decoder whose first payload is
rejected by the bool coder, the call fails and the flag stays unset. -/
theorem vp6_init_transitions_once_witness :
    vp6self0.init_called = false
    ∧ Vp6Decoder.initStep env1 vp6self0 [1]
        = .err "Error constructing VP6 bool coder: ShortData" vp6self0
    ∧ Vp6Decoder.decode_frame env1 vp6self0 [1]
        = .err "Error constructing VP6 bool coder: ShortData" vp6self0
    ∧ vp6self0.init_called = false :=
  ⟨rfl, rfl,
   ((vp6_init_transitions_once env1 env1 vp6self0 [1] rfl rfl).2.2.1
     "Error constructing VP6 bool coder: ShortData" vp6self0 rfl rfl).1,
   ((vp6_init_transitions_once env1 env1 vp6self0 [1] rfl rfl).2.2.1
     "Error constructing VP6 bool coder: ShortData" vp6self0 rfl rfl).2⟩

/-- Counterexample to C1 as stated: the first decode_frame call with a
non-empty payload does not necessarily trigger the transition.  With an
oracle whose bool coder rejects short data (as nihav does), a fresh
decoder fed the non-empty payload [1] fails and stays uninitialized. -/
theorem vp6_first_nonempty_frame_not_trigger :
    ([1] : List Nat) ≠ []
    ∧ Vp6Decoder.decode_frame env1 vp6self0 [1]
        = .err "Error constructing VP6 bool coder: ShortData" vp6self0
    ∧ vp6self0.init_called = false :=
  ⟨by decide, rfl, rfl⟩

/-! ## Claim C2: skip frames -/

/-- C2 (amended): after initialization, a skip-frame call fails with the
missing-prior-frame error when no frame was ever decoded, and otherwise
returns a DecodedFrame bit-identical to the previous successful result,
leaving the decoder state untouched. -/
theorem vp6_skip_frame_reuse {S : Type} (env : Vp6Env S)
    (self : Vp6Decoder S) (dskip : List Nat)
    (hinit : self.init_called = true)
    (hskip : skipCond self.with_alpha dskip = true) :
    (self.last_frame = none →
      Vp6Decoder.decode_frame env self dskip
        = .err "No previous frame found when encountering a skip frame" self)
    ∧ (∀ self₀ d₀ f₀, Vp6Decoder.decode_frame env self₀ d₀ = .ok f₀ self →
      Vp6Decoder.decode_frame env self dskip = .ok f₀ self) := by
  constructor
  · intro hlast
    rw [decode_frame_initialized env self dskip hinit]
    have hsel : Vp6Decoder.selectFrame env self dskip
        = .err "No previous frame found when encountering a skip frame" self := by
      unfold Vp6Decoder.selectFrame
      rw [if_pos hskip, hlast]
    rw [hsel]
  · intro self₀ d₀ f₀ hprev
    obtain ⟨hi0, hwa0, hb0, b, hlastb, hconv⟩ :=
      decode_ok_shape env self₀ d₀ f₀ self hprev
    rw [decode_frame_initialized env self dskip hinit]
    have hsel : Vp6Decoder.selectFrame env self dskip = .ok b self := by
      unfold Vp6Decoder.selectFrame
      rw [if_pos hskip, hlastb]
    rw [hsel]
    dsimp only
    rw [hconv]

/-- Witness for the amended C2: after one successful decode, the empty
skip frame returns the identical DecodedFrame with the state untouched. -/
theorem vp6_skip_frame_reuse_witness :
    vp6self1.init_called = true
    ∧ skipCond vp6self1.with_alpha [] = true
    ∧ Vp6Decoder.decode_frame env0 vp6self0 [5]
        = .ok { width := 1, height := 1, rgba := [9, 9, 9, 255] } vp6self1
    ∧ Vp6Decoder.decode_frame env0 vp6self1 []
        = .ok { width := 1, height := 1, rgba := [9, 9, 9, 255] } vp6self1 :=
  ⟨rfl, rfl, rfl,
   (vp6_skip_frame_reuse env0 vp6self1 [] rfl rfl).2 vp6self0 [5]
     { width := 1, height := 1, rgba := [9, 9, 9, 255] } rfl⟩

/-- Counterexample to C2 as stated: before initialization the decoder
does not report the missing-prior-frame error on a skip frame.  A fresh
alpha-enabled decoder fed the empty payload (a skip frame, with no prior
successful decode) panics instead, because lazy init runs first. -/
theorem vp6_skip_before_init_panics :
    skipCond (Vp6Decoder.new env0 true (1, 1)).with_alpha [] = true
    ∧ (Vp6Decoder.new env0 true (1, 1)).last_frame = none
    ∧ Vp6Decoder.decode_frame env0 (Vp6Decoder.new env0 true (1, 1)) []
        = .crash :=
  ⟨rfl, rfl, rfl⟩

/-! ## Claim C9: one bitmap per stream -/

/-- Per-call bitmap behaviour of the stream decode: a success stores the
returned handle; an error leaves the bitmap as it was. -/
lemma decode_bitmap_step {D R : Type}
    (decF : D → List Nat → Res D DecodedFrame) (rops : RendererOps R)
    (vs : VideoStream D) (r : R) (d : List Nat) :
    (∀ bi vs' r', VideoStream.decode decF rops vs r d = .ok bi (vs', r') →
      vs'.bitmap = some bi.handle)
    ∧ (∀ e vs' r', VideoStream.decode decF rops vs r d = .err e (vs', r') →
      vs'.bitmap = vs.bitmap) := by
  unfold VideoStream.decode
  cases hdec : decF vs.decoder d with
  | crash =>
    exact ⟨fun bi vs' r' h => (nomatch h), fun e vs' r' h => (nomatch h)⟩
  | err e2 d2 =>
    refine ⟨fun bi vs' r' h => (nomatch h), fun e vs' r' h => ?_⟩
    simp only [Res.err.injEq, Prod.mk.injEq] at h
    obtain ⟨-, hvs, -⟩ := h
    subst hvs
    rfl
  | ok frame d2 =>
    cases hbm : vs.bitmap with
    | some b =>
      cases hup : rops.update_texture r b frame.width frame.height frame.rgba with
      | mk r2 res =>
        cases res with
        | error e2 =>
          refine ⟨fun bi vs' r' h => ?_, fun e vs' r' h => ?_⟩
          · simp only [hup] at h
            exact (nomatch h)
          · simp only [hup, Res.err.injEq, Prod.mk.injEq] at h
            obtain ⟨-, hvs, -⟩ := h
            subst hvs
            simp [hbm]
        | ok hdl =>
          refine ⟨fun bi vs' r' h => ?_, fun e vs' r' h => ?_⟩
          · simp only [hup, Res.ok.injEq, Prod.mk.injEq] at h
            obtain ⟨hbi, hvs, -⟩ := h
            subst hvs; subst hbi
            rfl
          · simp only [hup] at h
            exact (nomatch h)
    | none =>
      cases hup : rops.register_bitmap_raw r frame.width frame.height frame.rgba with
      | mk r2 res =>
        cases res with
        | error e2 =>
          refine ⟨fun bi vs' r' h => ?_, fun e vs' r' h => ?_⟩
          · simp only [hup] at h
            exact (nomatch h)
          · simp only [hup, Res.err.injEq, Prod.mk.injEq] at h
            obtain ⟨-, hvs, -⟩ := h
            subst hvs
            simp [hbm]
        | ok hdl =>
          refine ⟨fun bi vs' r' h => ?_, fun e vs' r' h => ?_⟩
          · simp only [hup, Res.ok.injEq, Prod.mk.injEq] at h
            obtain ⟨hbi, hvs, -⟩ := h
            subst hvs; subst hbi
            rfl
          · simp only [hup] at h
            exact (nomatch h)

/-- Per-call counting behaviour under the instrumented renderer: a stream
that already has a bitmap never registers another one; a stream without
one performs exactly one successful registration when the call
succeeds; errors change nothing. -/
lemma decode_count_step {D R : Type}
    (decF : D → List Nat → Res D DecodedFrame) (rops : RendererOps R)
    (vs : VideoStream D) (r : R) (n : Nat) (d : List Nat) :
    (∀ bi vs' rc',
      VideoStream.decode decF (countingOps rops) vs (r, n) d = .ok bi (vs', rc') →
      vs'.bitmap = some bi.handle
      ∧ rc'.2 = n + (if vs.bitmap.isSome then 0 else 1))
    ∧ (∀ e vs' rc',
      VideoStream.decode decF (countingOps rops) vs (r, n) d = .err e (vs', rc') →
      vs'.bitmap = vs.bitmap ∧ rc'.2 = n) := by
  unfold VideoStream.decode
  cases hdec : decF vs.decoder d with
  | crash =>
    exact ⟨fun bi vs' rc' h => (nomatch h), fun e vs' rc' h => (nomatch h)⟩
  | err e2 d2 =>
    refine ⟨fun bi vs' rc' h => (nomatch h), fun e vs' rc' h => ?_⟩
    simp only [Res.err.injEq, Prod.mk.injEq] at h
    obtain ⟨-, hvs, hrc⟩ := h
    subst hvs; subst hrc
    exact ⟨rfl, rfl⟩
  | ok frame d2 =>
    cases hbm : vs.bitmap with
    | some b =>
      cases hup : rops.update_texture r b frame.width frame.height frame.rgba with
      | mk r2 res =>
        cases res with
        | error e2 =>
          refine ⟨fun bi vs' rc' h => ?_, fun e vs' rc' h => ?_⟩
          · simp only [countingOps, hup] at h
            exact (nomatch h)
          · simp only [countingOps, hup, Res.err.injEq, Prod.mk.injEq] at h
            obtain ⟨-, hvs, hrc⟩ := h
            subst hvs; subst hrc
            exact ⟨by simp [hbm], rfl⟩
        | ok hdl =>
          refine ⟨fun bi vs' rc' h => ?_, fun e vs' rc' h => ?_⟩
          · simp only [countingOps, hup, Res.ok.injEq, Prod.mk.injEq] at h
            obtain ⟨hbi, hvs, hrc⟩ := h
            subst hvs; subst hrc; subst hbi
            exact ⟨rfl, by simp [hbm]⟩
          · simp only [countingOps, hup] at h
            exact (nomatch h)
    | none =>
      cases hup : rops.register_bitmap_raw r frame.width frame.height frame.rgba with
      | mk r2 res =>
        cases res with
        | error e2 =>
          refine ⟨fun bi vs' rc' h => ?_, fun e vs' rc' h => ?_⟩
          · simp only [countingOps, hup] at h
            exact (nomatch h)
          · simp only [countingOps, hup, Res.err.injEq, Prod.mk.injEq] at h
            obtain ⟨-, hvs, hrc⟩ := h
            subst hvs; subst hrc
            exact ⟨by simp [hbm], rfl⟩
        | ok hdl =>
          refine ⟨fun bi vs' rc' h => ?_, fun e vs' rc' h => ?_⟩
          · simp only [countingOps, hup, Res.ok.injEq, Prod.mk.injEq] at h
            obtain ⟨hbi, hvs, hrc⟩ := h
            subst hvs; subst hrc; subst hbi
            exact ⟨rfl, by simp [hbm]⟩
          · simp only [countingOps, hup] at h
            exact (nomatch h)

/-- Running any sequence of decode calls preserves the invariant that the
successful-registration count is 1 when the stream has a bitmap and 0
when it does not. -/
lemma runStream_count_invariant {D R : Type}
    (decF : D → List Nat → Res D DecodedFrame) (rops : RendererOps R)
    (frames : List (List Nat)) :
    ∀ (vs : VideoStream D) (r : R) (n : Nat) vs2 r2 n2,
      runStream decF (countingOps rops) (vs, (r, n)) frames
        = some (vs2, (r2, n2)) →
      n = (if vs.bitmap.isSome then 1 else 0) →
      n2 = (if vs2.bitmap.isSome then 1 else 0) := by
  induction frames with
  | nil =>
    intro vs r n vs2 r2 n2 h hn
    unfold runStream at h
    simp only [Option.some.injEq, Prod.mk.injEq] at h
    obtain ⟨h1, h2, h3⟩ := h
    subst h1; subst h2; subst h3
    exact hn
  | cons d rest ih =>
    intro vs r n vs2 r2 n2 h hn
    unfold runStream at h
    split at h
    next heq => exact (nomatch h)
    next e sr2 heq =>
      obtain ⟨vs1, r1, n1⟩ := sr2
      obtain ⟨hbm, hcnt⟩ :=
        (decode_count_step decF rops vs r n d).2 e vs1 (r1, n1) heq
      have hcnt2 : n1 = n := hcnt
      refine ih vs1 r1 n1 vs2 r2 n2 h ?_
      rw [hcnt2, hn, hbm]
    next bi sr2 heq =>
      obtain ⟨vs1, r1, n1⟩ := sr2
      obtain ⟨hbm, hcnt⟩ :=
        (decode_count_step decF rops vs r n d).1 bi vs1 (r1, n1) heq
      have hcnt2 : n1 = n + (if vs.bitmap.isSome then 0 else 1) := hcnt
      refine ih vs1 r1 n1 vs2 r2 n2 h ?_
      rw [hcnt2, hn, hbm]
      cases hvb : vs.bitmap.isSome <;> simp [hvb]

/-- C9: a stream's bitmap handle is none until the first successful decode
and some afterwards (successes store the returned handle, errors leave
it unchanged), and along any sequence of decode calls starting from a
fresh stream, a raw bitmap is successfully registered at most once
(the instrumented registration count is 1 exactly when the stream has a
bitmap, so later successes go through update_texture instead). -/
theorem stream_bitmap_registered_once {D R : Type}
    (decF : D → List Nat → Res D DecodedFrame) (rops : RendererOps R) :
    (∀ (vs : VideoStream D) (r : R) d bi vs' r',
      VideoStream.decode decF rops vs r d = .ok bi (vs', r') →
      vs'.bitmap = some bi.handle)
    ∧ (∀ (vs : VideoStream D) (r : R) d e vs' r',
      VideoStream.decode decF rops vs r d = .err e (vs', r') →
      vs'.bitmap = vs.bitmap)
    ∧ (∀ (d0 : D) (r0 : R) frames vs2 r2 n2,
      runStream decF (countingOps rops) (VideoStream.new d0, (r0, 0)) frames
        = some (vs2, (r2, n2)) →
      n2 = (if vs2.bitmap.isSome then 1 else 0)) := by
  refine ⟨?_, ?_, ?_⟩
  · intro vs r d bi vs' r' h
    exact (decode_bitmap_step decF rops vs r d).1 bi vs' r' h
  · intro vs r d e vs' r' h
    exact (decode_bitmap_step decF rops vs r d).2 e vs' r' h
  · intro d0 r0 frames vs2 r2 n2 h
    exact runStream_count_invariant decF rops frames (VideoStream.new d0)
      r0 0 vs2 r2 n2 h rfl

/-- A decoder stub for the C9 witness: every decode succeeds with a fixed
one-pixel frame. -/
def c9decF : Unit → List Nat → Res Unit DecodedFrame :=
  fun d _ => .ok { width := 1, height := 1, rgba := [0, 0, 0, 255] } d

/-- Witness for C9: two successful decodes on a fresh stream register one
bitmap (the first call) and then update it (the second call keeps the
count at 1). -/
theorem stream_bitmap_registered_once_witness :
    runStream c9decF (countingOps rops0) (VideoStream.new (), ((), 0))
        [[0], [0]]
      = some ({ bitmap := some 7, decoder := () }, ((), 1))
    ∧ (1 : Nat)
      = (if ({ bitmap := some 7, decoder := () } : VideoStream Unit).bitmap.isSome
          then 1 else 0) :=
  ⟨rfl,
   (stream_bitmap_registered_once c9decF rops0).2.2 () () [[0], [0]]
     { bitmap := some 7, decoder := () } () 1 rfl⟩

/-! ## Claim C4: row compaction during cropping -/

/-- copyWithin with valid ranges succeeds, preserves the length, reads
l[s + (k - d)] into every position d ≤ k < d + (e - s), and leaves all
other positions unchanged. -/
lemma copyWithin_spec (l : List Nat) (s e d : Nat)
    (hse : s ≤ e) (hel : e ≤ l.length) (hdl : d + (e - s) ≤ l.length) :
    ∃ out, copyWithin l s e d = .ok out ∧ out.length = l.length
      ∧ (∀ k, d ≤ k → k < d + (e - s) →
          out.getD k 0 = l.getD (s + (k - d)) 0)
      ∧ (∀ k, k < d ∨ d + (e - s) ≤ k → out.getD k 0 = l.getD k 0) := by
  have hA : (l.take d).length = d := by
    simp [List.length_take]
    omega
  have hB : ((l.drop s).take (e - s)).length = e - s := by
    simp [List.length_take, List.length_drop]
    omega
  refine ⟨l.take d ++ ((l.drop s).take (e - s) ++ l.drop (d + (e - s))),
    ?_, ?_, ?_, ?_⟩
  · unfold copyWithin
    rw [if_pos ⟨hse, hel, hdl⟩]
    rw [List.append_assoc]
  · simp [List.length_take, List.length_drop]
    omega
  · intro k hk1 hk2
    rw [List.getD_eq_getElem?_getD, List.getD_eq_getElem?_getD,
      List.getElem?_append, hA, if_neg (by omega),
      List.getElem?_append, hB, if_pos (by omega),
      List.getElem?_take, if_pos (by omega), List.getElem?_drop]
  · intro k hk
    rcases hk with hk | hk
    · rw [List.getD_eq_getElem?_getD, List.getD_eq_getElem?_getD,
        List.getElem?_append, hA, if_pos (by omega),
        List.getElem?_take, if_pos (by omega)]
    · rw [List.getD_eq_getElem?_getD, List.getD_eq_getElem?_getD,
        List.getElem?_append, hA, if_neg (by omega),
        List.getElem?_append, hB, if_neg (by omega),
        List.getElem?_drop]
      have hidx : d + (e - s) + (k - d - (e - s)) = k := by omega
      rw [hidx]

/-- The compaction loop, started at any row with all earlier rows already
compacted and everything from the current output position untouched,
compacts every row below nh to the new width. -/
lemma squishRows_spec (width nw nh : Nat) (hnw : nw < width)
    (orig : List Nat) (hlen : nh * (width * 4) ≤ orig.length) :
    ∀ gas row buf, nh - row = gas → 1 ≤ row →
      buf.length = orig.length →
      (∀ j, j < row → ∀ i, i < nw * 4 →
        buf.getD (j * (nw * 4) + i) 0 = orig.getD (j * (width * 4) + i) 0) →
      (∀ k, row * (nw * 4) ≤ k → buf.getD k 0 = orig.getD k 0) →
      ∃ out, squishRows width nw nh row buf = .ok out
        ∧ out.length = orig.length
        ∧ ∀ j, j < nh → ∀ i, i < nw * 4 →
            out.getD (j * (nw * 4) + i) 0
              = orig.getD (j * (width * 4) + i) 0 := by
  intro gas
  induction gas with
  | zero =>
    intro row buf hgas hrow hblen hpre htail
    have hnr : ¬ row < nh := by omega
    refine ⟨buf, ?_, hblen, ?_⟩
    · unfold squishRows
      rw [dif_neg hnr]
    · intro j hj i hi
      exact hpre j (by omega) i hi
  | succ gas ih =>
    intro row buf hgas hrow hblen hpre htail
    have hrlt : row < nh := by omega
    have hexp1 : (row * width + nw) * 4 = row * width * 4 + nw * 4 := by ring
    have hexp2 : (row + 1) * (width * 4) = row * width * 4 + width * 4 := by
      ring
    have hexp3 : (row + 1) * (nw * 4) = row * nw * 4 + nw * 4 := by ring
    have hexp4 : row * (nw * 4) = row * nw * 4 := by ring
    have hexp5 : row * (width * 4) = row * width * 4 := by ring
    have hmul1 : (row + 1) * (width * 4) ≤ nh * (width * 4) :=
      Nat.mul_le_mul_right _ (by omega)
    have hmul2 : nw * 4 ≤ width * 4 := Nat.mul_le_mul_right _ (by omega)
    have hmul5 : row * nw * 4 ≤ row * width * 4 :=
      Nat.mul_le_mul_right _ (Nat.mul_le_mul_left _ (Nat.le_of_lt hnw))
    have hs_le_e : row * width * 4 ≤ (row * width + nw) * 4 := by omega
    have he_le : (row * width + nw) * 4 ≤ buf.length := by
      rw [hblen]
      omega
    have hd_le : row * nw * 4
        + ((row * width + nw) * 4 - row * width * 4) ≤ buf.length := by
      rw [hblen]
      omega
    obtain ⟨mid, hcw, hmlen, hwin, hout⟩ :=
      copyWithin_spec buf (row * width * 4) ((row * width + nw) * 4)
        (row * nw * 4) hs_le_e he_le hd_le
    have hpre2 : ∀ j, j < row + 1 → ∀ i, i < nw * 4 →
        mid.getD (j * (nw * 4) + i) 0 = orig.getD (j * (width * 4) + i) 0 := by
      intro j hj i hi
      rcases Nat.lt_or_ge j row with hjr | hjr
      · have hjmul : (j + 1) * (nw * 4) ≤ row * (nw * 4) :=
          Nat.mul_le_mul_right _ (by omega)
        have hexpj : (j + 1) * (nw * 4) = j * (nw * 4) + nw * 4 := by ring
        rw [hout (j * (nw * 4) + i) (Or.inl (by omega))]
        exact hpre j hjr i hi
      · have hj2 : j = row := by omega
        subst hj2
        rw [hwin (j * (nw * 4) + i) (by omega) (by omega)]
        rw [show j * width * 4 + (j * (nw * 4) + i - j * nw * 4)
            = j * width * 4 + i from by omega]
        rw [htail (j * width * 4 + i) (by omega)]
        rw [show j * (width * 4) + i = j * width * 4 + i from by omega]
    have htail2 : ∀ k, (row + 1) * (nw * 4) ≤ k →
        mid.getD k 0 = orig.getD k 0 := by
      intro k hk
      have hexp6 : (row + 1) * (nw * 4) = row * nw * 4 + nw * 4 := by ring
      rw [hout k (Or.inr (by omega))]
      exact htail k (by omega)
    obtain ⟨out, hsq, holen, hprop⟩ := ih (row + 1) mid (by omega) (by omega)
      (hmlen.trans hblen) hpre2 htail2
    refine ⟨out, ?_, holen, hprop⟩
    unfold squishRows
    rw [dif_pos hrlt, hcw]
    exact hsq

/-- C4: when the decoded width exceeds the declared bound width, the
cropping step returns width equal to the bound, every output row holds
exactly the leading bound-width pixels of the corresponding input row,
contiguously packed with no gaps, and the height is clamped to the
bound by truncation. -/
theorem vp6_crop_width_rows (bw bh w h : Nat) (rgba : List Nat)
    (hw : bw < w) (hlen : rgba.length = w * h * 4) :
    ∃ out, cropFrame (bw, bh) w h rgba = .ok (bw, min h bh, out)
      ∧ out.length = bw * min h bh * 4
      ∧ ∀ r i, r < min h bh → i < bw * 4 →
          out.getD (r * (bw * 4) + i) 0 = rgba.getD (r * (w * 4) + i) 0 := by
  have hnh : min h bh ≤ h := Nat.min_le_left h bh
  have hlen2 : min h bh * (w * 4) ≤ rgba.length := by
    rw [hlen]
    calc min h bh * (w * 4) ≤ h * (w * 4) := Nat.mul_le_mul_right _ hnh
      _ = w * h * 4 := by ring
  obtain ⟨out, hsq, holen, hprop⟩ :=
    squishRows_spec w bw (min h bh) hw rgba hlen2 (min h bh - 1) 1 rgba
      (by omega) (le_refl 1) rfl
      (by
        intro j hj i hi
        have hj0 : j = 0 := by omega
        subst hj0
        simp)
      (fun k _ => rfl)
  have hminmin : min (min h bh) bh = min h bh := by omega
  have htk : bw * min h bh * 4 ≤ w * h * 4 :=
    Nat.mul_le_mul_right _ (Nat.mul_le_mul (Nat.le_of_lt hw) hnh)
  refine ⟨out.take (bw * min h bh * 4), ?_, ?_, ?_⟩
  · unfold cropFrame
    rw [if_pos (show (bw, bh).1 < w from hw)]
    simp only []
    rw [hsq, hminmin]
  · rw [List.length_take, holen, hlen]
    exact Nat.min_eq_left htk
  · intro r i hr hi
    have hexp : (r + 1) * (bw * 4) = r * (bw * 4) + bw * 4 := by ring
    have h1 : (r + 1) * (bw * 4) ≤ min h bh * (bw * 4) :=
      Nat.mul_le_mul_right _ (by omega)
    have h2 : min h bh * (bw * 4) = bw * min h bh * 4 := by ring
    have hlt : r * (bw * 4) + i < bw * min h bh * 4 := by omega
    rw [List.getD_eq_getElem?_getD, List.getElem?_take, if_pos hlt,
      ← List.getD_eq_getElem?_getD]
    exact hprop r hr i hi

/-- Witness for C4 at the spec example: decoded width 32 (two 16-pixel
macroblocks), declared bound width 20, height equal to the bound. -/
theorem vp6_crop_width_rows_witness :
    (20 : Nat) < 32
    ∧ (List.replicate 2560 (0 : Nat)).length = 32 * 20 * 4
    ∧ ∃ out, cropFrame (20, 20) 32 20 (List.replicate 2560 0)
        = .ok (20, min 20 20, out)
      ∧ out.length = 20 * min 20 20 * 4
      ∧ ∀ r i, r < min 20 20 → i < 20 * 4 →
          out.getD (r * (20 * 4) + i) 0
            = (List.replicate 2560 (0 : Nat)).getD (r * (32 * 4) + i) 0 :=
  ⟨by decide, by rw [List.length_replicate],
   vp6_crop_width_rows 20 20 32 20 (List.replicate 2560 0) (by decide)
     (by rw [List.length_replicate])⟩

end RuffleVideo
